import Mathlib

/-!
Verification development for the coreference dataset preprocessing module
(`data.py`): corpus parsing with running maxima, word-to-subtoken alignment,
cluster remapping, length filtering, and cluster padding.

The subword tokenizer is an external capability `tokenize(word) -> subtokens`;
it is modelled as an abstract function `tok : String → List τ` where `τ` is
the type of subtoken units.
-/

namespace S2E

/-- A parsed example as produced by `CorefDataset._parse_jsonlines`: the
document key, the flattened word sequence, and the word-level clusters.
Each mention is an `(start_word, end_word_exclusive)` pair of integers as
read from the JSON input (so out-of-range and negative indices are
representable, as they are in Python). -/
structure Example where
  doc_key : String
  words : List String
  clusters : List (List (Int × Int))
  deriving Repr, DecidableEq

/-- The per-document alignment state of `CorefDataset._tokenize`
(`data.py` lines 70-74): the word-to-first-subtoken map, the
word-to-last-subtoken map (Python dicts keyed by the dense word indices
`0..n-1`, modelled as lists indexed by position), the reverse
subtoken-to-word map seeded with one entry for the future start token,
and the accumulated subtoken sequence. -/
structure TokState (τ : Type) where
  word_idx_to_start_token_idx : List Nat
  word_idx_to_end_token_idx : List Nat
  end_token_idx_to_word_idx : List Nat
  token_ids : List τ
  deriving Repr, DecidableEq

/-- The word-scanning loop body of `CorefDataset._tokenize`
(`for idx, word in enumerate(words)`, `data.py` lines 75-81): the first
subtoken index of word `idx` is recorded as `len(token_ids) + 1` before
tokenizing, the reverse map gains one entry per emitted subtoken, the
subtokens are appended, and the last subtoken index is recorded as the
new `len(token_ids)`. -/
def tokenizeLoop {τ : Type} (tok : String → List τ) :
    List String → TokState τ → TokState τ
  | [], s => s
  | word :: ws, s =>
    let idx := s.word_idx_to_start_token_idx.length
    let tokenized := tok word
    tokenizeLoop tok ws
      { word_idx_to_start_token_idx :=
          s.word_idx_to_start_token_idx ++ [s.token_ids.length + 1]
        word_idx_to_end_token_idx :=
          s.word_idx_to_end_token_idx ++ [s.token_ids.length + tokenized.length]
        end_token_idx_to_word_idx :=
          s.end_token_idx_to_word_idx ++ List.replicate tokenized.length idx
        token_ids := s.token_ids ++ tokenized }

/-- Running the word-scanning loop of `CorefDataset._tokenize` on one
document from the initial state (empty maps, reverse map seeded with `[0]`
for the start token, no subtokens). -/
def tokenizeWords {τ : Type} (tok : String → List τ) (words : List String) :
    TokState τ :=
  tokenizeLoop tok words ⟨[], [], [0], []⟩

/-- Lookup in a Python dict whose keys are exactly the word indices
`0 .. m.length - 1` built by the enumerate loop: `some` value for a key in
that range, `none` (a `KeyError`, i.e. a fatal indexing error) otherwise. -/
def dictLookup (m : List Nat) (k : Int) : Option Nat :=
  if 0 ≤ k then m[k.toNat]? else none

/-- Remapping of one mention (`data.py` line 88): a word-level mention
`(start, end_exclusive)` becomes the subtoken-level inclusive pair
`(word_idx_to_start_token_idx[start], word_idx_to_end_token_idx[end - 1])`;
`none` models the `KeyError` raised on an out-of-range word index. -/
def remapMention (st en : List Nat) (m : Int × Int) : Option (Nat × Nat) := do
  let a ← dictLookup st m.1
  let b ← dictLookup en (m.2 - 1)
  pure (a, b)

/-- Remapping of a document's cluster list (`data.py` lines 87-89):
every mention of every cluster is remapped, and any out-of-range word
index aborts the whole computation. -/
def remapClusters (st en : List Nat) (clusters : List (List (Int × Int))) :
    Option (List (List (Nat × Nat))) :=
  clusters.mapM (fun cluster => cluster.mapM (remapMention st en))

/-- A tokenized example as appended by `CorefDataset._tokenize`
(`data.py` line 98): the document key, the reverse subtoken-to-word map,
the subtoken sequence, and the remapped clusters. -/
structure CorefExample (τ : Type) where
  doc_key : String
  end_token_idx_to_word_idx : List Nat
  token_ids : List τ
  clusters : List (List (Nat × Nat))
  deriving Repr, DecidableEq

/-- `CorefDataset._tokenize` (`data.py` lines 64-99): for each parsed
example in order, tokenize its words; if `0 < max_seq_length < len(token_ids)`
count the document as filtered and skip it (its clusters are never touched);
otherwise remap its clusters (propagating a fatal indexing error as `none`)
and append the tokenized example and its subtoken length.  Returns the
tokenized examples, the per-document lengths, and the filtered count. -/
def tokenize {τ : Type} (tok : String → List τ) (max_seq_length : Int) :
    List Example → Option (List (CorefExample τ) × List Nat × Nat)
  | [] => some ([], [], 0)
  | ex :: rest =>
    if 0 < max_seq_length ∧
        max_seq_length < (((tokenizeWords tok ex.words).token_ids.length : Int)) then
      (tokenize tok max_seq_length rest).map (fun r => (r.1, r.2.1, r.2.2 + 1))
    else
      match remapClusters (tokenizeWords tok ex.words).word_idx_to_start_token_idx
          (tokenizeWords tok ex.words).word_idx_to_end_token_idx ex.clusters with
      | none => none
      | some new_clusters =>
        (tokenize tok max_seq_length rest).map (fun r =>
          (⟨ex.doc_key, (tokenizeWords tok ex.words).end_token_idx_to_word_idx,
              (tokenizeWords tok ex.words).token_ids, new_clusters⟩ :: r.1,
           (tokenizeWords tok ex.words).token_ids.length :: r.2.1, r.2.2))

/-- `flatten_list_of_lists` from `utils.py` (not under `src/`).  Modelled
from the spec: flattening is order-preserving concatenation of the
sublists. -/
def flatten_list_of_lists {α : Type} (l : List (List α)) : List α :=
  l.flatten

/-- A raw JSON-lines document record: `doc_key`, `sentences` (words grouped
by sentence) and word-level `clusters`. -/
structure RawDoc where
  doc_key : String
  sentences : List (List String)
  clusters : List (List (Int × Int))
  deriving Repr, DecidableEq

/-- Python's `max` over a non-empty sequence (the guarded
`max(len(cluster) for cluster in clusters)` call); the `[]` case is never
reached by the guarded caller. -/
def pyMax : List Int → Int
  | [] => 0
  | x :: xs => xs.foldl max x

/-- The per-line body of `CorefDataset._parse_jsonlines` (`data.py`
lines 50-61): flatten the sentences into one word sequence, update the
three running maxima, and append the parsed example. -/
def parseStep (acc : List Example × Int × Int × Int) (d : RawDoc) :
    List Example × Int × Int × Int :=
  (acc.1 ++ [⟨d.doc_key, flatten_list_of_lists d.sentences, d.clusters⟩],
   max acc.2.1 ((flatten_list_of_lists d.clusters).length : Int),
   max acc.2.2.1
     (if d.clusters = [] then 0
      else pyMax (d.clusters.map (fun cluster => (cluster.length : Int)))),
   max acc.2.2.2 (if d.clusters = [] then 0 else (d.clusters.length : Int)))

/-- `CorefDataset._parse_jsonlines` (`data.py` lines 28-62): fold over the
document records with all three maxima initialised to `-1`. -/
def parse_jsonlines (docs : List RawDoc) : List Example × Int × Int × Int :=
  docs.foldl parseStep ([], -1, -1, -1)

/-- `CorefDataset.pad_clusters_inside` (`data.py` lines 107-109): every
cluster is extended with `max_cluster_size - len(cluster)` copies of the
null-span sentinel pair.  In Python `[x] * n` is empty for `n ≤ 0`, which
`Int.toNat` reproduces.  `NULL_ID_FOR_COREF` lives in `consts.py`, not
under `src/`; modelled from the spec as an abstract reserved sentinel
identifier, passed as a parameter. -/
def pad_clusters_inside (NULL_ID_FOR_COREF : Int) (max_cluster_size : Int)
    (clusters : List (List (Int × Int))) : List (List (Int × Int)) :=
  clusters.map (fun cluster =>
    cluster ++ List.replicate (max_cluster_size - (cluster.length : Int)).toNat
      (NULL_ID_FOR_COREF, NULL_ID_FOR_COREF))

/-- `CorefDataset.pad_clusters_outside` (`data.py` lines 111-112): the
cluster list is extended with `max_num_clusters - len(clusters)` empty
clusters. -/
def pad_clusters_outside (max_num_clusters : Int)
    (clusters : List (List (Int × Int))) : List (List (Int × Int)) :=
  clusters ++ List.replicate (max_num_clusters - (clusters.length : Int)).toNat []

/-- `CorefDataset.pad_clusters` (`data.py` lines 114-117): outside padding
followed by inside padding. -/
def pad_clusters (NULL_ID_FOR_COREF : Int) (max_num_clusters max_cluster_size : Int)
    (clusters : List (List (Int × Int))) : List (List (Int × Int)) :=
  pad_clusters_inside NULL_ID_FOR_COREF max_cluster_size
    (pad_clusters_outside max_num_clusters clusters)

/-- The whole in-scope pipeline: parse the raw records, then tokenize,
filter and remap with the given tokenizer and maximum sequence length
(`CorefDataset.__init__`, `data.py` lines 19-24). -/
def pipeline {τ : Type} (tok : String → List τ) (max_seq_length : Int)
    (docs : List RawDoc) :
    Option (List (CorefExample τ) × List Nat × Nat) × Int × Int × Int :=
  let p := parse_jsonlines docs
  (tokenize tok max_seq_length p.1, p.2.1, p.2.2.1, p.2.2.2)

/-! ### Characterization of the word-scanning loop -/

theorem tokenizeLoop_token_ids {τ : Type} (tok : String → List τ) (ws : List String)
    (s : TokState τ) :
    (tokenizeLoop tok ws s).token_ids = s.token_ids ++ ws.flatMap tok := by
  induction ws generalizing s with
  | nil => simp [tokenizeLoop]
  | cons w ws ih => simp [tokenizeLoop, ih]

theorem tokenizeLoop_start {τ : Type} (tok : String → List τ) (ws : List String)
    (s : TokState τ) :
    (tokenizeLoop tok ws s).word_idx_to_start_token_idx =
      s.word_idx_to_start_token_idx ++
        (List.range ws.length).map
          (fun i => s.token_ids.length + ((ws.take i).flatMap tok).length + 1) := by
  induction ws generalizing s with
  | nil => simp [tokenizeLoop]
  | cons w ws ih =>
    rw [tokenizeLoop, ih]
    simp only [List.length_cons, List.range_succ_eq_map, List.map_cons, List.map_map,
      List.take_zero, List.flatMap_nil, List.length_nil, Nat.add_zero,
      List.append_assoc, List.singleton_append, List.length_append]
    refine congrArg _ (congrArg _ ?_)
    refine List.map_congr_left (fun i _ => ?_)
    simp only [Function.comp_apply, List.take_succ_cons, List.flatMap_cons,
      List.length_append]
    omega

theorem tokenizeLoop_end {τ : Type} (tok : String → List τ) (ws : List String)
    (s : TokState τ) :
    (tokenizeLoop tok ws s).word_idx_to_end_token_idx =
      s.word_idx_to_end_token_idx ++
        (List.range ws.length).map
          (fun i => s.token_ids.length + ((ws.take (i + 1)).flatMap tok).length) := by
  induction ws generalizing s with
  | nil => simp [tokenizeLoop]
  | cons w ws ih =>
    rw [tokenizeLoop, ih]
    simp only [List.length_cons, List.range_succ_eq_map, List.map_cons, List.map_map,
      Nat.zero_add, List.take_succ_cons, List.take_zero, List.flatMap_cons,
      List.flatMap_nil, List.append_nil, List.append_assoc, List.singleton_append,
      List.length_append]
    refine congrArg _ (congrArg _ ?_)
    refine List.map_congr_left (fun i _ => ?_)
    simp only [Function.comp_apply, Nat.succ_eq_add_one, List.take_succ_cons,
      List.flatMap_cons, List.length_append]
    omega

theorem tokenizeWords_token_ids {τ : Type} (tok : String → List τ) (words : List String) :
    (tokenizeWords tok words).token_ids = words.flatMap tok := by
  simp [tokenizeWords, tokenizeLoop_token_ids]

theorem tokenizeWords_start {τ : Type} (tok : String → List τ) (words : List String) :
    (tokenizeWords tok words).word_idx_to_start_token_idx =
      (List.range words.length).map
        (fun i => ((words.take i).flatMap tok).length + 1) := by
  simp [tokenizeWords, tokenizeLoop_start]

theorem tokenizeWords_end {τ : Type} (tok : String → List τ) (words : List String) :
    (tokenizeWords tok words).word_idx_to_end_token_idx =
      (List.range words.length).map
        (fun i => ((words.take (i + 1)).flatMap tok).length) := by
  simp [tokenizeWords, tokenizeLoop_end]

theorem tokenizeWords_start_length {τ : Type} (tok : String → List τ)
    (words : List String) :
    (tokenizeWords tok words).word_idx_to_start_token_idx.length = words.length := by
  simp [tokenizeWords_start]

theorem tokenizeWords_end_length {τ : Type} (tok : String → List τ)
    (words : List String) :
    (tokenizeWords tok words).word_idx_to_end_token_idx.length = words.length := by
  simp [tokenizeWords_end]

theorem tokenizeWords_start_getElem {τ : Type} (tok : String → List τ)
    (words : List String) (idx : Nat) (h : idx < words.length) :
    (tokenizeWords tok words).word_idx_to_start_token_idx[idx]? =
      some (((words.take idx).flatMap tok).length + 1) := by
  rw [tokenizeWords_start, List.getElem?_map, List.getElem?_range h]; rfl

theorem tokenizeWords_end_getElem {τ : Type} (tok : String → List τ)
    (words : List String) (idx : Nat) (h : idx < words.length) :
    (tokenizeWords tok words).word_idx_to_end_token_idx[idx]? =
      some (((words.take (idx + 1)).flatMap tok).length) := by
  rw [tokenizeWords_end, List.getElem?_map, List.getElem?_range h]; rfl

/-! ### Claims C1 and C7: per-word span bookkeeping -/

/-- Per-word span bookkeeping of the word-scanning loop: recorded first
index, recorded last index, their relation to the word's subtoken run, and
the run coverage inside `token_ids`. -/
theorem span_alignment_core {τ : Type} (tok : String → List τ) (words : List String)
    (idx : Nat) (h : idx < words.length) :
    (tokenizeWords tok words).word_idx_to_start_token_idx[idx]? =
      some (((words.take idx).flatMap tok).length + 1) ∧
    (tokenizeWords tok words).word_idx_to_end_token_idx[idx]? =
      some ((words.take (idx + 1)).flatMap tok).length ∧
    ((words.take (idx + 1)).flatMap tok).length =
      ((words.take idx).flatMap tok).length + (tok words[idx]).length ∧
    (((tokenizeWords tok words).token_ids.drop
        ((words.take idx).flatMap tok).length).take (tok words[idx]).length =
      tok words[idx]) := by
  refine ⟨tokenizeWords_start_getElem tok words idx h,
    tokenizeWords_end_getElem tok words idx h, ?_, ?_⟩
  · rw [List.take_succ, List.getElem?_eq_getElem h]
    simp only [Option.toList_some, List.flatMap_append, List.length_append,
      List.flatMap_cons, List.flatMap_nil, List.append_nil]
  · have hsplit : words.flatMap tok =
        (words.take idx).flatMap tok ++
          (tok words[idx] ++ ((words.drop (idx + 1)).flatMap tok)) := by
      conv_lhs => rw [← List.take_append_drop idx words]
      rw [List.flatMap_append, List.drop_eq_getElem_cons h, List.flatMap_cons]
    rw [tokenizeWords_token_ids, hsplit, List.drop_left, List.take_left]

/-- Claim C1: for every document processed by the aligner and every word
index `idx` scanned in order, the recorded first-subtoken index of word
`idx` equals the number of subtokens emitted before tokenizing that word
plus one, and the recorded last-subtoken index equals the number of
subtokens emitted after tokenizing that word; hence (last conjunct) for
every word expanding to at least one subtoken, the inclusive span
`(first, last)` exactly covers that word's subtoken run shifted by `+1`
for the start token: the run of `(tok words[idx]).length` subtokens
starting at zero-based position `first - 1` of `token_ids` is exactly the
word's own tokenization, and `last = first - 1 + (tok words[idx]).length`. -/
theorem C1_span_alignment {τ : Type} (tok : String → List τ) (words : List String)
    (idx : Nat) (h : idx < words.length) :
    (tokenizeWords tok words).word_idx_to_start_token_idx[idx]? =
      some (((words.take idx).flatMap tok).length + 1) ∧
    (tokenizeWords tok words).word_idx_to_end_token_idx[idx]? =
      some ((words.take (idx + 1)).flatMap tok).length ∧
    ((words.take (idx + 1)).flatMap tok).length =
      ((words.take idx).flatMap tok).length + (tok words[idx]).length ∧
    (((tokenizeWords tok words).token_ids.drop
        ((words.take idx).flatMap tok).length).take (tok words[idx]).length =
      tok words[idx]) :=
  span_alignment_core tok words idx h

/-- Witness for C1 at a concrete input: with a tokenizer emitting two
subtokens per word, word 1 of a three-word document has first index 3 and
last index 4, and its run covers `token_ids` positions 2 and 3. -/
theorem C1_span_alignment_witness :
    (tokenizeWords (fun w => [w, w]) ["a", "b", "c"]).word_idx_to_start_token_idx[1]? =
      some 3 ∧
    (tokenizeWords (fun w => [w, w]) ["a", "b", "c"]).word_idx_to_end_token_idx[1]? =
      some 4 ∧
    ((tokenizeWords (fun w => [w, w]) ["a", "b", "c"]).token_ids.drop 2).take 2 =
      ["b", "b"] := by
  have h := C1_span_alignment (fun w => [w, w]) ["a", "b", "c"] 1 (by decide)
  exact ⟨h.1.trans rfl, h.2.1.trans rfl, h.2.2.2⟩

/-- Claim C7: for every word that tokenizes to zero subtokens, the aligner
records its last-subtoken index as the running token count before
tokenizing it (the cursor does not advance), which makes that word's
recorded last index exactly one less than its recorded first index. -/
theorem C7_zero_expansion_word {τ : Type} (tok : String → List τ)
    (words : List String) (idx : Nat) (h : idx < words.length)
    (hz : (tok words[idx]).length = 0) :
    (tokenizeWords tok words).word_idx_to_end_token_idx[idx]? =
      some ((words.take idx).flatMap tok).length ∧
    (tokenizeWords tok words).word_idx_to_start_token_idx[idx]? =
      some (((words.take idx).flatMap tok).length + 1) := by
  have h1 := span_alignment_core tok words idx h
  refine ⟨?_, h1.1⟩
  rw [h1.2.1, h1.2.2.1, hz, Nat.add_zero]

/-- Witness for C7 at a concrete input: with a tokenizer sending the empty
word to no subtokens, word 1 of `["a", "", "b"]` gets last index 1 and
first index 2. -/
theorem C7_zero_expansion_word_witness :
    (tokenizeWords (fun w => if w = "" then [] else [w])
        ["a", "", "b"]).word_idx_to_end_token_idx[1]? = some 1 ∧
    (tokenizeWords (fun w => if w = "" then [] else [w])
        ["a", "", "b"]).word_idx_to_start_token_idx[1]? = some 2 := by
  have h := C7_zero_expansion_word (fun w => if w = "" then [] else [w])
    ["a", "", "b"] 1 (by decide) (by decide)
  exact ⟨h.1.trans (by decide), h.2.trans (by decide)⟩

/-! ### Claim C2: cluster remapping and its failure condition -/

/-- A mention `(start, end_exclusive)` references only word indices inside
the word range of a document with `word_count` words: `start ∈ [0, word_count)`
and `end_exclusive - 1 ∈ [0, word_count)`. -/
def mentionInRange (word_count : Nat) (m : Int × Int) : Bool :=
  decide (0 ≤ m.1 ∧ m.1 < (word_count : Int)) &&
    decide (0 ≤ m.2 - 1 ∧ m.2 - 1 < (word_count : Int))

theorem dictLookup_eq (m : List Nat) (k : Int) :
    dictLookup m k =
      if 0 ≤ k ∧ k < (m.length : Int) then some (m.getD k.toNat 0) else none := by
  unfold dictLookup
  by_cases h0 : 0 ≤ k
  · by_cases h1 : k.toNat < m.length
    · have h2 : k < (m.length : Int) := by omega
      rw [if_pos h0, if_pos ⟨h0, h2⟩, List.getElem?_eq_getElem h1,
        List.getD_eq_getElem m 0 h1]
    · have h2 : ¬(k < (m.length : Int)) := by omega
      rw [if_pos h0, if_neg (fun h => h2 h.2), List.getElem?_eq_none (by omega)]
  · rw [if_neg h0, if_neg (fun h => h0 h.1)]

theorem remapMention_eq (wc : Nat) (st en : List Nat) (hst : st.length = wc)
    (hen : en.length = wc) (m : Int × Int) :
    remapMention st en m =
      if mentionInRange wc m then
        some (st.getD m.1.toNat 0, en.getD (m.2 - 1).toNat 0)
      else none := by
  unfold remapMention
  rw [dictLookup_eq, dictLookup_eq, hst, hen]
  by_cases h1 : 0 ≤ m.1 ∧ m.1 < (wc : Int) <;>
    by_cases h2 : 0 ≤ m.2 - 1 ∧ m.2 - 1 < (wc : Int)
  · have hm : mentionInRange wc m = true := by simp [mentionInRange, h1, h2]
    rw [if_pos h1, if_pos h2, if_pos hm]
    rfl
  · have hm : ¬mentionInRange wc m = true := by
      simp only [mentionInRange, Bool.and_eq_true, decide_eq_true_eq]
      omega
    rw [if_pos h1, if_neg h2, if_neg hm]
    rfl
  · have hm : ¬mentionInRange wc m = true := by
      simp [mentionInRange, h1, h2]
    rw [if_neg h1, if_neg hm]
    rfl
  · have hm : ¬mentionInRange wc m = true := by
      simp [mentionInRange, h1, h2]
    rw [if_neg h1, if_neg hm]
    rfl

theorem mapM_eq_if_all {α β : Type} (f : α → Option β) (p : α → Bool) (g : α → β)
    (hf : ∀ a, f a = if p a then some (g a) else none) (l : List α) :
    l.mapM f = if l.all p then some (l.map g) else none := by
  induction l with
  | nil => rfl
  | cons a l ih =>
    rw [List.mapM_cons, hf a, ih]
    by_cases hp : p a <;> by_cases hl : l.all p <;> simp [hp, hl]

/-- Claim C2: for every surviving document, every mention
`(start_word, end_word_exclusive)` in every cluster is remapped to the pair
`(word_idx_to_start_token_idx[start_word], word_idx_to_end_token_idx[end_word - 1])`,
and the remapping raises a fatal indexing error (`none`) if and only if some
mention references a word index outside the document's word range
(`start_word ∉ [0, word_count)` or `end_word - 1 ∉ [0, word_count)`). -/
theorem C2_cluster_remapping {τ : Type} (tok : String → List τ)
    (words : List String) (clusters : List (List (Int × Int))) :
    remapClusters (tokenizeWords tok words).word_idx_to_start_token_idx
        (tokenizeWords tok words).word_idx_to_end_token_idx clusters =
      if clusters.all (fun cluster => cluster.all (mentionInRange words.length)) then
        some (clusters.map (List.map (fun m =>
          ((tokenizeWords tok words).word_idx_to_start_token_idx.getD m.1.toNat 0,
           (tokenizeWords tok words).word_idx_to_end_token_idx.getD (m.2 - 1).toNat 0))))
      else none := by
  unfold remapClusters
  refine mapM_eq_if_all _ _ _ (fun cluster => ?_) clusters
  exact mapM_eq_if_all _ _ _
    (remapMention_eq words.length _ _ (tokenizeWords_start_length tok words)
      (tokenizeWords_end_length tok words)) cluster

/-! ### Claims C3 and C10: the length filter -/

/-- The filter condition of `data.py` line 83
(`0 < self.max_seq_length < len(token_ids)`), as a Boolean predicate on a
parsed example. -/
def isFiltered {τ : Type} (tok : String → List τ) (max_seq_length : Int)
    (ex : Example) : Bool :=
  decide (0 < max_seq_length ∧
    max_seq_length < (((tokenizeWords tok ex.words).token_ids.length : Int)))

/-- The processing of one surviving document in `CorefDataset._tokenize`:
tokenize its words and remap its clusters (with a possible fatal indexing
error). -/
def processDoc {τ : Type} (tok : String → List τ) (ex : Example) :
    Option (CorefExample τ) :=
  (remapClusters (tokenizeWords tok ex.words).word_idx_to_start_token_idx
      (tokenizeWords tok ex.words).word_idx_to_end_token_idx ex.clusters).map
    (fun nc => ⟨ex.doc_key, (tokenizeWords tok ex.words).end_token_idx_to_word_idx,
      (tokenizeWords tok ex.words).token_ids, nc⟩)

/-- Claim C3: for every document, if `max_seq_length > 0` and the document's
total subtoken count exceeds `max_seq_length`, the document is entirely
absent from the tokenized output (not truncated) and the filtered counter
increments by exactly 1 for it; if `max_seq_length ≤ 0`, no document is ever
filtered; surviving documents keep their input order and the per-document
length list is positionally aligned with the output list.  All of this is
packaged as one equation: `tokenize` equals processing exactly the
non-filtered documents in order, with the length list the positional image
of the output and the filtered count the number of filtered documents. -/
theorem C3_length_filter {τ : Type} (tok : String → List τ) (max_seq_length : Int)
    (exs : List Example) :
    tokenize tok max_seq_length exs =
      ((exs.filter (fun ex => !isFiltered tok max_seq_length ex)).mapM
          (processDoc tok)).map
        (fun out => (out, out.map (fun t => t.token_ids.length),
          exs.countP (isFiltered tok max_seq_length))) ∧
    (max_seq_length ≤ 0 → exs.countP (isFiltered tok max_seq_length) = 0) := by
  constructor
  · induction exs with
    | nil => rfl
    | cons ex rest ih =>
      by_cases hf : 0 < max_seq_length ∧
          max_seq_length < (((tokenizeWords tok ex.words).token_ids.length : Int))
      · have hfb : isFiltered tok max_seq_length ex = true := by
          simpa [isFiltered] using hf
        rw [tokenize, if_pos hf, ih, List.filter_cons_of_neg (by simp [hfb]),
          List.countP_cons, if_pos hfb]
        cases hmm : ((rest.filter (fun e => !isFiltered tok max_seq_length e)).mapM
            (processDoc tok)) with
        | none => rfl
        | some out => rfl
      · have hfb : isFiltered tok max_seq_length ex = false := by
          simp only [isFiltered, decide_eq_false_iff_not]
          exact hf
        rw [tokenize, if_neg hf, List.filter_cons_of_pos (by simp [hfb]),
          List.countP_cons, if_neg (by simp [hfb]), Nat.add_zero, List.mapM_cons]
        cases hrc : remapClusters (tokenizeWords tok ex.words).word_idx_to_start_token_idx
            (tokenizeWords tok ex.words).word_idx_to_end_token_idx ex.clusters with
        | none => simp [processDoc, hrc]
        | some nc =>
          rw [ih]
          cases hmm : ((rest.filter (fun e => !isFiltered tok max_seq_length e)).mapM
              (processDoc tok)) with
          | none => simp [processDoc, hrc]
          | some out => simp [processDoc, hrc]
  · intro hle
    rw [List.countP_eq_zero]
    intro ex _
    simp only [isFiltered, decide_eq_true_eq, not_and]
    intro h
    omega

/-- Witness for C3 at a concrete input: with `max_seq_length = 2` the
two-subtoken document survives and the three-subtoken document is dropped
and counted, and with `max_seq_length = -1` nothing is counted. -/
theorem C3_length_filter_witness :
    tokenize (fun w => [w]) 2
        [⟨"a", ["w1", "w2", "w3"], []⟩, ⟨"b", ["w4", "w5"], []⟩] =
      some ([⟨"b", [0, 0, 1], ["w4", "w5"], []⟩], [2], 1) ∧
    [⟨"a", ["w1", "w2", "w3"], ([] : List (List (Int × Int)))⟩].countP
        (isFiltered (fun w => [w]) (-1)) = 0 := by
  constructor
  · exact ((C3_length_filter (fun w => [w]) 2
      [⟨"a", ["w1", "w2", "w3"], []⟩, ⟨"b", ["w4", "w5"], []⟩]).1).trans (by decide)
  · exact (C3_length_filter (fun w => [w]) (-1)
      [⟨"a", ["w1", "w2", "w3"], []⟩]).2 (by decide)

/-- Claim C10: the length filter is applied before cluster remapping, so a
document whose subtoken count trips the filter is counted and skipped with
its clusters never touched: whatever its clusters are (even ones that
reference out-of-range word indices), processing the remaining documents is
unaffected and no indexing error is raised for the filtered document. -/
theorem C10_filter_precedes_remap {τ : Type} (tok : String → List τ)
    (max_seq_length : Int) (ex : Example) (rest : List Example)
    (hf : isFiltered tok max_seq_length ex = true) :
    tokenize tok max_seq_length (ex :: rest) =
      (tokenize tok max_seq_length rest).map (fun r => (r.1, r.2.1, r.2.2 + 1)) := by
  have h : 0 < max_seq_length ∧
      max_seq_length < (((tokenizeWords tok ex.words).token_ids.length : Int)) := by
    simpa [isFiltered] using hf
  rw [tokenize, if_pos h]

/-- Witness for C10 at a concrete input: a document whose single mention
`(5, 9)` lies far outside its two-word range is filtered (length 2 exceeds
`max_seq_length = 1`), so tokenization succeeds with one counted document
instead of raising the indexing error that remapping `(5, 9)` would give. -/
theorem C10_filter_precedes_remap_witness :
    isFiltered (fun w => [w]) 1 ⟨"bad", ["a", "b"], [[(5, 9)]]⟩ = true ∧
    tokenize (fun w => [w]) 1 [⟨"bad", ["a", "b"], [[(5, 9)]]⟩] =
      some ([], [], 1) := by
  refine ⟨by decide, ?_⟩
  exact (C10_filter_precedes_remap (fun w => [w]) 1 ⟨"bad", ["a", "b"], [[(5, 9)]]⟩ []
    (by decide)).trans rfl

/-! ### Claims C4 and C5: cluster padding -/

/-- Claim C4: for every clusters list containing at most `max_num_clusters`
clusters, each of at most `max_cluster_size` mentions, `pad_clusters`
returns exactly `max_num_clusters` clusters each containing exactly
`max_cluster_size` mention pairs, so every document in every batch yields
the identical `(max_num_clusters, max_cluster_size, 2)` cluster shape
regardless of how many real clusters or mentions the document has. -/
theorem C4_uniform_padded_shape (NULL_ID_FOR_COREF : Int)
    (max_num_clusters max_cluster_size : Int) (clusters : List (List (Int × Int)))
    (h1 : (clusters.length : Int) ≤ max_num_clusters)
    (h2 : ∀ cluster ∈ clusters, (cluster.length : Int) ≤ max_cluster_size) :
    (pad_clusters NULL_ID_FOR_COREF max_num_clusters max_cluster_size
        clusters).length = max_num_clusters.toNat ∧
    ∀ cluster ∈ pad_clusters NULL_ID_FOR_COREF max_num_clusters max_cluster_size
        clusters, cluster.length = max_cluster_size.toNat := by
  constructor
  · simp only [pad_clusters, pad_clusters_inside, pad_clusters_outside,
      List.length_map, List.length_append, List.length_replicate]
    omega
  · intro cluster hmem
    simp only [pad_clusters, pad_clusters_inside, List.mem_map] at hmem
    obtain ⟨c, hc, rfl⟩ := hmem
    simp only [pad_clusters_outside, List.mem_append] at hc
    rcases hc with hc | hc
    · have hle := h2 c hc
      simp only [List.length_append, List.length_replicate]
      omega
    · have hce := List.eq_of_mem_replicate hc
      subst hce
      simp only [List.length_append, List.length_replicate, List.length_nil]
      omega

/-- Witness for C4 at a concrete input (the spec's own scenario with
`max_num_clusters = 2`, `max_cluster_size = 3` and one real cluster of two
mentions): the padded list has 2 clusters and its second cluster has 3
mention slots. -/
theorem C4_uniform_padded_shape_witness :
    (pad_clusters (-1) 2 3 [[(1, 2), (3, 4)]]).length = 2 ∧
    ((pad_clusters (-1) 2 3 [[(1, 2), (3, 4)]]).getD 1 []).length = 3 := by
  have h := C4_uniform_padded_shape (-1) 2 3 [[(1, 2), (3, 4)]] (by decide)
    (by decide)
  refine ⟨h.1.trans (by decide), ?_⟩
  exact (h.2 ((pad_clusters (-1) 2 3 [[(1, 2), (3, 4)]]).getD 1 [])
    (by decide)).trans (by decide)

/-- Counterexample to claim C5 as stated: with `max_num_clusters = 1` and
`max_cluster_size = 1`, a list of two clusters whose first cluster has two
mentions passes through `pad_clusters` completely unchanged — it still has
2 clusters and its first cluster still has 2 mentions, so nothing is
truncated down to the configured maxima. -/
theorem C5_counterexample :
    pad_clusters (-1) 1 1 [[(1, 2), (3, 4)], [(5, 6)]] =
      [[(1, 2), (3, 4)], [(5, 6)]] ∧
    (pad_clusters (-1) 1 1 [[(1, 2), (3, 4)], [(5, 6)]]).length = 2 ∧
    ((pad_clusters (-1) 1 1 [[(1, 2), (3, 4)], [(5, 6)]]).getD 0 []).length = 2 := by
  decide

/-- Claim C5 (amended): if `max_cluster_size` is smaller than the number of
mentions in some cluster, or `max_num_clusters` is smaller than the number
of clusters in a document, `pad_clusters` does not truncate: whenever the
cluster list is at least `max_num_clusters` long, outside padding is the
identity, so the output keeps exactly the input's clusters (none removed,
none appended); and whenever any individual cluster — whatever the sizes of
the other clusters — has at least `max_cluster_size` mentions, it passes
through `pad_clusters` unchanged at its position (no mentions removed or
added).  The two parts are independent, each with only its own
hypothesis. -/
theorem C5_oversize_unchanged (NULL_ID_FOR_COREF : Int)
    (max_num_clusters max_cluster_size : Int)
    (clusters : List (List (Int × Int))) :
    (max_num_clusters ≤ (clusters.length : Int) →
      pad_clusters_outside max_num_clusters clusters = clusters ∧
      (pad_clusters NULL_ID_FOR_COREF max_num_clusters max_cluster_size
        clusters).length = clusters.length) ∧
    (∀ i, (hi : i < clusters.length) →
      max_cluster_size ≤ ((clusters[i]).length : Int) →
      (pad_clusters NULL_ID_FOR_COREF max_num_clusters max_cluster_size
        clusters)[i]? = some clusters[i]) := by
  constructor
  · intro h1
    have hk : (max_num_clusters - (clusters.length : Int)).toNat = 0 := by omega
    have houter : pad_clusters_outside max_num_clusters clusters = clusters := by
      unfold pad_clusters_outside
      rw [hk, List.replicate_zero, List.append_nil]
    refine ⟨houter, ?_⟩
    unfold pad_clusters pad_clusters_inside
    rw [houter, List.length_map]
  · intro i hi h2
    have hz : (max_cluster_size - (((clusters[i]).length : Nat) : Int)).toNat = 0 := by
      omega
    unfold pad_clusters pad_clusters_inside pad_clusters_outside
    rw [List.getElem?_map, List.getElem?_append_left hi,
      List.getElem?_eq_getElem hi, Option.map_some', hz, List.replicate_zero,
      List.append_nil]

/-- Witness for the amended C5 at a concrete input: with `max_num_clusters
= 1` and `max_cluster_size = 2`, a two-cluster list whose first cluster has
2 mentions and whose second has only 1 keeps both clusters (outside
padding is the identity and the padded list still has 2 clusters), and the
oversized first cluster comes through unchanged even though its neighbour
is below the maximum. -/
theorem C5_oversize_unchanged_witness :
    pad_clusters_outside 1 [[(1, 2), (3, 4)], [(5, 6)]] =
      [[(1, 2), (3, 4)], [(5, 6)]] ∧
    (pad_clusters (-7) 1 2 [[(1, 2), (3, 4)], [(5, 6)]]).length = 2 ∧
    (pad_clusters (-7) 1 2 [[(1, 2), (3, 4)], [(5, 6)]])[0]? =
      some [(1, 2), (3, 4)] := by
  obtain ⟨h1, h2⟩ := C5_oversize_unchanged (-7) 1 2 [[(1, 2), (3, 4)], [(5, 6)]]
  have ha := h1 (by decide)
  exact ⟨ha.1, ha.2.trans rfl, (h2 0 (by decide) (by decide)).trans rfl⟩

/-! ### Claim C8: corpus maxima -/

theorem parse_jsonlines_loop (docs : List RawDoc) (exs : List Example)
    (a b c : Int) :
    docs.foldl parseStep (exs, a, b, c) =
      (exs ++ docs.map
        (fun d => ⟨d.doc_key, flatten_list_of_lists d.sentences, d.clusters⟩),
       (docs.map
         (fun d => ((flatten_list_of_lists d.clusters).length : Int))).foldl max a,
       (docs.map
         (fun d => if d.clusters = [] then 0
          else pyMax (d.clusters.map
            (fun cluster => (cluster.length : Int))))).foldl max b,
       (docs.map
         (fun d => if d.clusters = [] then 0
          else (d.clusters.length : Int))).foldl max c) := by
  induction docs generalizing exs a b c with
  | nil => simp
  | cons d docs ih => simp [parseStep, ih]

theorem pyMax_nonneg_eq_foldl (l : List Int) (hne : l ≠ [])
    (h : ∀ x ∈ l, 0 ≤ x) : pyMax l = l.foldl max 0 := by
  cases l with
  | nil => exact absurd rfl hne
  | cons x xs =>
    have hx : max 0 x = x := max_eq_right (h x (List.mem_cons_self x xs))
    simp only [pyMax, List.foldl_cons, hx]

/-- Claim C8: the corpus parser returns `max_mention_num` equal to the
maximum over documents of the total mention count across all clusters,
`max_cluster_size` equal to the maximum over all clusters of that cluster's
mention count with a document of zero clusters contributing 0, and
`max_num_clusters` equal to the maximum over documents of the cluster
count; each maximum is computed by running max-reduction initialised to
`-1`, so all three are `-1` for an empty corpus. -/
theorem C8_corpus_maxima (docs : List RawDoc) :
    (parse_jsonlines docs).2.1 =
      (docs.map
        (fun d => ((flatten_list_of_lists d.clusters).length : Int))).foldl
        max (-1) ∧
    (parse_jsonlines docs).2.2.1 =
      (docs.map
        (fun d => (d.clusters.map
          (fun cluster => (cluster.length : Int))).foldl max 0)).foldl max (-1) ∧
    (parse_jsonlines docs).2.2.2 =
      (docs.map (fun d => (d.clusters.length : Int))).foldl max (-1) ∧
    parse_jsonlines [] = ([], -1, -1, -1) := by
  unfold parse_jsonlines
  rw [parse_jsonlines_loop]
  refine ⟨rfl, ?_, ?_, rfl⟩
  · refine congrArg (List.foldl max (-1)) (List.map_congr_left (fun d _ => ?_))
    by_cases hd : d.clusters = []
    · simp [hd]
    · rw [if_neg hd, pyMax_nonneg_eq_foldl _ (by simp [hd]) (fun x hx => ?_)]
      obtain ⟨cl, _, rfl⟩ := List.mem_map.1 hx
      exact Int.natCast_nonneg cl.length
  · refine congrArg (List.foldl max (-1)) (List.map_congr_left (fun d _ => ?_))
    by_cases hd : d.clusters = [] <;> simp [hd]

/-! ### Claim C9: determinism of the parse-and-tokenize pipeline -/

/-- Claim C9: parsing and tokenization are deterministic: for any fixed
corpus content and any deterministic tokenizer (two tokenizers that agree
on every word), two runs of the parser plus aligner produce identical
outputs — the same tokenized example collection, lengths list, filtered
count, and corpus maxima.  The embedded pipeline is a pure function of the
records and the tokenizer, so equal inputs give equal outputs. -/
theorem C9_determinism {τ : Type} (tok₁ tok₂ : String → List τ)
    (max_seq_length : Int) (docs₁ docs₂ : List RawDoc)
    (hdocs : docs₁ = docs₂) (htok : ∀ w, tok₁ w = tok₂ w) :
    pipeline tok₁ max_seq_length docs₁ = pipeline tok₂ max_seq_length docs₂ := by
  subst hdocs
  have hfun : tok₁ = tok₂ := funext htok
  subst hfun
  rfl

/-- Witness for C9 at a concrete input: two runs on the same one-document
corpus with the identity-like tokenizer give the same output. -/
theorem C9_determinism_witness :
    pipeline (fun w => [w]) (-1) [⟨"d", [["a", "b"]], [[(0, 1)]]⟩] =
      pipeline (fun w => [w]) (-1) [⟨"d", [["a", "b"]], [[(0, 1)]]⟩] :=
  C9_determinism (fun w => [w]) (fun w => [w]) (-1)
    [⟨"d", [["a", "b"]], [[(0, 1)]]⟩] [⟨"d", [["a", "b"]], [[(0, 1)]]⟩]
    rfl (fun _ => rfl)

/-! ### Claim C6: the concrete twelve-word scenario -/

theorem one_token_flatMap_length {τ : Type} (tok : String → List τ)
    (h : ∀ w, (tok w).length = 1) (ws : List String) :
    (ws.flatMap tok).length = ws.length := by
  induction ws with
  | nil => rfl
  | cons w ws ih =>
    simp only [List.flatMap_cons, List.length_append, h, ih, List.length_cons]
    omega

theorem one_token_start_map {τ : Type} (tok : String → List τ)
    (h : ∀ w, (tok w).length = 1) (ws : List String) :
    (tokenizeWords tok ws).word_idx_to_start_token_idx =
      (List.range ws.length).map (fun i => i + 1) := by
  rw [tokenizeWords_start]
  refine List.map_congr_left (fun i hi => ?_)
  rw [List.mem_range] at hi
  rw [one_token_flatMap_length tok h, List.length_take]
  omega

theorem one_token_end_map {τ : Type} (tok : String → List τ)
    (h : ∀ w, (tok w).length = 1) (ws : List String) :
    (tokenizeWords tok ws).word_idx_to_end_token_idx =
      (List.range ws.length).map (fun i => i + 1) := by
  rw [tokenizeWords_end]
  refine List.map_congr_left (fun i hi => ?_)
  rw [List.mem_range] at hi
  rw [one_token_flatMap_length tok h, List.length_take]
  omega

/-- The twelve-word document of the spec's concrete scenario. -/
def demoWords : List String :=
  ["John", "Smith", "is", "a", "nice", "guy", ".", "He", "lives", "in",
   "London", "."]

/-- Claim C6: for the concrete document with the 12 words
`["John","Smith","is","a","nice","guy",".","He","lives","in","London","."]`
and the single cluster of mentions `[[0,2],[7,8]]`, under a tokenizer
mapping every word to exactly one subtoken, the aligner produces
`token_ids` of length 12 and the remapped clusters `[[(1,2),(8,8)]]`. -/
theorem C6_demo_scenario {τ : Type} (tok : String → List τ)
    (h : ∀ w, (tok w).length = 1) :
    (tokenizeWords tok demoWords).token_ids.length = 12 ∧
    remapClusters (tokenizeWords tok demoWords).word_idx_to_start_token_idx
        (tokenizeWords tok demoWords).word_idx_to_end_token_idx
        [[(0, 2), (7, 8)]] = some [[(1, 2), (8, 8)]] ∧
    tokenize tok (-1) [⟨"demo", demoWords, [[(0, 2), (7, 8)]]⟩] =
      some ([⟨"demo", (tokenizeWords tok demoWords).end_token_idx_to_word_idx,
          (tokenizeWords tok demoWords).token_ids, [[(1, 2), (8, 8)]]⟩],
        [12], 0) := by
  have hlen : (tokenizeWords tok demoWords).token_ids.length = 12 := by
    rw [tokenizeWords_token_ids, one_token_flatMap_length tok h]
    rfl
  have hremap : remapClusters
      (tokenizeWords tok demoWords).word_idx_to_start_token_idx
      (tokenizeWords tok demoWords).word_idx_to_end_token_idx
      [[(0, 2), (7, 8)]] = some [[(1, 2), (8, 8)]] := by
    rw [one_token_start_map tok h, one_token_end_map tok h]
    decide
  refine ⟨hlen, hremap, ?_⟩
  have hneg : ¬(0 < (-1 : Int) ∧ (-1 : Int) <
      (((tokenizeWords tok demoWords).token_ids.length : Int))) :=
    fun hc => absurd hc.1 (by decide)
  rw [tokenize, if_neg hneg, hremap, tokenize]
  simp only [hlen]
  rfl

/-- Witness for C6 at a concrete one-subtoken tokenizer. -/
theorem C6_demo_scenario_witness :
    (tokenizeWords (fun _ => ["t"]) demoWords).token_ids.length = 12 ∧
    remapClusters
        (tokenizeWords (fun _ => ["t"]) demoWords).word_idx_to_start_token_idx
        (tokenizeWords (fun _ => ["t"]) demoWords).word_idx_to_end_token_idx
        [[(0, 2), (7, 8)]] = some [[(1, 2), (8, 8)]] := by
  have h := C6_demo_scenario (fun _ => ["t"]) (fun _ => rfl)
  exact ⟨h.1, h.2.1⟩

end S2E
